import Mathlib

/-!
Verification development for the mcp-windows-desktop-automation server.

The repository is a TypeScript MCP (JSON-RPC over stdio/websocket) adapter
around the AutoIt desktop-automation library.  This file gives a shallow
embedding of the parts of the source that carry design content:

* the JSON wire codec used by the websocket transport
  (`JSON.stringify` / `JSON.parse` as invoked in `src/server/server.ts`),
* the `WebSocketServerTransport` adapter state machine
  (constructor listeners, `send`, `close`),
* the tool-handler response envelopes (`createToolResponse`,
  `createErrorResponse` in `src/utils/types.ts`) and representative
  handlers (`winActivate`, `processClose`, `mouseMove`, `clipGet`),
* the transport selection logic (`setupServer` in `src/server/server.ts`,
  `startServer` in the package entry point),
* the file and screenshot resource handlers (`src/resources/index.ts`).

Numbers on the JSON wire are modelled as integers, which covers the
JSON-RPC ids and all automation parameters this server exchanges.
-/

set_option linter.unusedVariables false

mutual
/-- JSON value: the JavaScript values exchanged by `JSON.stringify` and
`JSON.parse` on the websocket wire.  The inbound listener in
`server.ts` casts the parsed value to `JSONRPCMessage` without runtime
validation, so a structured message is exactly a JSON value. -/
inductive Json where
  | null
  | bool (b : Bool)
  | num (n : Int)
  | str (s : String)
  | arr (xs : JArr)
  | obj (kvs : JObj)

/-- Array of JSON values (spelled out so that mutual structural recursion
over the package is available). -/
inductive JArr where
  | nil
  | cons (hd : Json) (tl : JArr)

/-- JSON object: ordered key/value members. -/
inductive JObj where
  | nil
  | cons (key : String) (val : Json) (tl : JObj)
end

/-- Decimal digit character for `k < 10`, as produced by JavaScript number
printing. -/
def digitChar (k : Nat) : Char := Char.ofNat (48 + k)

/-- Decimal digits of a natural number, most significant first (the text
`JSON.stringify` produces for a non-negative integer). -/
def natDigits (n : Nat) : List Char :=
  if h : n < 10 then [digitChar n] else natDigits (n / 10) ++ [digitChar (n % 10)]
decreasing_by exact Nat.div_lt_self (by omega) (by omega)

/-- Characters `JSON.stringify` produces for an integer. -/
def intChars (n : Int) : List Char :=
  if n < 0 then '-' :: natDigits n.natAbs else natDigits n.toNat

/-- Lower-case hex digit for `k < 16`. -/
def hexDigitChar (k : Nat) : Char :=
  if k < 10 then Char.ofNat (48 + k) else Char.ofNat (87 + k)

/-- How `JSON.stringify` escapes one character inside a string literal:
quote and backslash get a backslash escape, the common control characters
get their short escapes, remaining control characters get a `\u00XX`
escape, and everything else is emitted verbatim. -/
def escapeChar (c : Char) : List Char :=
  if c = '"' then ['\\', '"']
  else if c = '\\' then ['\\', '\\']
  else if c = '\n' then ['\\', 'n']
  else if c = '\t' then ['\\', 't']
  else if c = '\r' then ['\\', 'r']
  else if c = Char.ofNat 8 then ['\\', 'b']
  else if c = Char.ofNat 12 then ['\\', 'f']
  else if c.toNat < 32 then ['\\', 'u', '0', '0', hexDigitChar (c.toNat / 16), hexDigitChar (c.toNat % 16)]
  else [c]

/-- A JSON string literal: opening quote, escaped characters, closing
quote. -/
def escapeChars (cs : List Char) : List Char :=
  '"' :: go cs
where
  go : List Char → List Char
  | [] => ['"']
  | c :: cs => escapeChar c ++ go cs

mutual
/-- The character stream `JSON.stringify` emits for a JSON value (no
optional whitespace, the exact output of the JavaScript builtin). -/
def stringifyChars : Json → List Char
  | .null => "null".data
  | .bool true => "true".data
  | .bool false => "false".data
  | .num n => intChars n
  | .str s => escapeChars s.data
  | .arr xs => '[' :: headItems xs ++ [']']
  | .obj kvs => Char.ofNat 123 :: headMembers kvs ++ [Char.ofNat 125]

/-- Comma-separated array items (first item unprefixed). -/
def headItems : JArr → List Char
  | .nil => []
  | .cons v tl => stringifyChars v ++ restItems tl

/-- Comma-prefixed continuation of an item list. -/
def restItems : JArr → List Char
  | .nil => []
  | .cons v tl => ',' :: stringifyChars v ++ restItems tl

/-- Comma-separated object members (first member unprefixed). -/
def headMembers : JObj → List Char
  | .nil => []
  | .cons k v tl => escapeChars k.data ++ ':' :: stringifyChars v ++ restMembers tl

/-- Comma-prefixed continuation of a member list. -/
def restMembers : JObj → List Char
  | .nil => []
  | .cons k v tl => ',' :: (escapeChars k.data ++ ':' :: stringifyChars v ++ restMembers tl)
end

/-- `JSON.stringify` on a structured message: the wire text the adapter
writes to the socket in `send`. -/
def stringify (j : Json) : String := String.mk (stringifyChars j)

/-- ASCII decimal digit test (the only digits JSON numbers may use). -/
def isDigitChar (c : Char) : Bool := decide (48 ≤ c.toNat) && decide (c.toNat ≤ 57)

/-- Numeric value of an ASCII digit. -/
def digitVal (c : Char) : Nat := c.toNat - 48

/-- Consume a run of decimal digits, accumulating their value. -/
def parseDigits (acc : Nat) : List Char → Nat × List Char
  | [] => (acc, [])
  | c :: cs => if isDigitChar c then parseDigits (acc * 10 + digitVal c) cs else (acc, c :: cs)

/-- Parse a natural number (at least one digit). -/
def parseNat : List Char → Option (Nat × List Char)
  | [] => none
  | c :: cs => if isDigitChar c then some (parseDigits (digitVal c) cs) else none

/-- Value of a hex digit character, if it is one. -/
def hexVal (c : Char) : Option Nat :=
  if 48 ≤ c.toNat ∧ c.toNat ≤ 57 then some (c.toNat - 48)
  else if 97 ≤ c.toNat ∧ c.toNat ≤ 102 then some (c.toNat - 87)
  else if 65 ≤ c.toNat ∧ c.toNat ≤ 70 then some (c.toNat - 55)
  else none

mutual
/-- Parse the body of a JSON string literal (after the opening quote):
returns the decoded characters and the input following the closing
quote.  Raw control characters are rejected, exactly as `JSON.parse`
rejects them. -/
def parseStringBody : List Char → Option (List Char × List Char)
  | [] => none
  | c :: cs =>
    if c = '"' then some ([], cs)
    else if c = '\\' then parseEscape cs
    else if c.toNat < 32 then none
    else (parseStringBody cs).map (fun r => (c :: r.1, r.2))

/-- Decode one backslash escape and continue with the string body. -/
def parseEscape : List Char → Option (List Char × List Char)
  | [] => none
  | e :: cs1 =>
    if e = '"' then (parseStringBody cs1).map (fun r => ('"' :: r.1, r.2))
    else if e = '\\' then (parseStringBody cs1).map (fun r => ('\\' :: r.1, r.2))
    else if e = '/' then (parseStringBody cs1).map (fun r => ('/' :: r.1, r.2))
    else if e = 'n' then (parseStringBody cs1).map (fun r => ('\n' :: r.1, r.2))
    else if e = 't' then (parseStringBody cs1).map (fun r => ('\t' :: r.1, r.2))
    else if e = 'r' then (parseStringBody cs1).map (fun r => ('\r' :: r.1, r.2))
    else if e = 'b' then (parseStringBody cs1).map (fun r => (Char.ofNat 8 :: r.1, r.2))
    else if e = 'f' then (parseStringBody cs1).map (fun r => (Char.ofNat 12 :: r.1, r.2))
    else if e = 'u' then parseHex4 cs1
    else none

/-- Decode the four hex digits of a unicode escape and continue with the
string body. -/
def parseHex4 : List Char → Option (List Char × List Char)
  | h1 :: h2 :: h3 :: h4 :: cs2 =>
    match hexVal h1, hexVal h2, hexVal h3, hexVal h4 with
    | some a, some b, some c3, some d =>
      (parseStringBody cs2).map (fun r => (Char.ofNat (4096 * a + 256 * b + 16 * c3 + d) :: r.1, r.2))
    | _, _, _, _ => none
  | _ => none
end

/-- Match an expected literal character sequence, returning the remaining
input. -/
def matchChars : List Char → List Char → Option (List Char)
  | [], rest => some rest
  | _ :: _, [] => none
  | k :: ks, c :: cs => if c = k then matchChars ks cs else none

mutual
/-- Recursive-descent JSON parser (the model of `JSON.parse` on the
whitespace-free frames the peer's `send` path emits).  `fuel` bounds the
nesting the parser will follow; `parse` supplies a budget that is always
sufficient for a serialized value. -/
def parseValue : Nat → List Char → Option (Json × List Char)
  | 0, _ => none
  | _ + 1, [] => none
  | fuel + 1, c :: cs =>
    if c = 'n' then (matchChars ['u', 'l', 'l'] cs).map (fun rest => (.null, rest))
    else if c = 't' then (matchChars ['r', 'u', 'e'] cs).map (fun rest => (.bool true, rest))
    else if c = 'f' then (matchChars ['a', 'l', 's', 'e'] cs).map (fun rest => (.bool false, rest))
    else if c = '"' then (parseStringBody cs).map (fun r => (.str (String.mk r.1), r.2))
    else if c = '-' then (parseNat cs).map (fun r => (.num (-(r.1 : Int)), r.2))
    else if isDigitChar c then
      some (.num ((parseDigits (digitVal c) cs).1 : Int), (parseDigits (digitVal c) cs).2)
    else if c = '[' then parseArrTail fuel cs
    else if c = Char.ofNat 123 then parseObjTail fuel cs
    else none

/-- After an opening bracket: empty array or one-or-more items. -/
def parseArrTail : Nat → List Char → Option (Json × List Char)
  | 0, _ => none
  | _ + 1, [] => none
  | fuel + 1, d :: cs2 =>
    if d = ']' then some (.arr .nil, cs2)
    else (parseItems fuel (d :: cs2)).map (fun r => (.arr r.1, r.2))

/-- After an opening brace: empty object or one-or-more members. -/
def parseObjTail : Nat → List Char → Option (Json × List Char)
  | 0, _ => none
  | _ + 1, [] => none
  | fuel + 1, d :: cs2 =>
    if d = Char.ofNat 125 then some (.obj .nil, cs2)
    else (parseMembers fuel (d :: cs2)).map (fun r => (.obj r.1, r.2))

/-- Parse one or more comma-separated items followed by the closing
bracket. -/
def parseItems : Nat → List Char → Option (JArr × List Char)
  | 0, _ => none
  | fuel + 1, cs =>
    match parseValue fuel cs with
    | none => none
    | some (v, rest) =>
      match rest with
      | [] => none
      | d :: rest2 =>
        if d = ',' then (parseItems fuel rest2).map (fun r => (.cons v r.1, r.2))
        else if d = ']' then some (.cons v .nil, rest2)
        else none

/-- Parse one or more comma-separated members followed by the closing
brace. -/
def parseMembers : Nat → List Char → Option (JObj × List Char)
  | 0, _ => none
  | _ + 1, [] => none
  | fuel + 1, c :: cs1 =>
    if c = '"' then
      match parseStringBody cs1 with
      | none => none
      | some (kchars, cs2) =>
        match cs2 with
        | [] => none
        | d :: cs3 =>
          if d = ':' then
            match parseValue fuel cs3 with
            | none => none
            | some (v, cs4) =>
              match cs4 with
              | [] => none
              | e :: cs5 =>
                if e = ',' then (parseMembers fuel cs5).map (fun r => (.cons (String.mk kchars) v r.1, r.2))
                else if e = Char.ofNat 125 then some (.cons (String.mk kchars) v .nil, cs5)
                else none
          else none
    else none
end

/-- `JSON.parse` on a whole inbound frame: the frame parses iff it is one
JSON value with nothing after it. -/
def parse (s : String) : Option Json :=
  match parseValue (2 * s.data.length + 1) s.data with
  | some (j, []) => some j
  | _ => none

/-- True when the input does not continue with a decimal digit (so a
just-parsed number cannot be extended by the following characters). -/
def headNotDigit : List Char → Bool
  | [] => true
  | c :: _ => !isDigitChar c

theorem digitChar_isDigit (k : Nat) (h : k < 10) : isDigitChar (digitChar k) = true := by
  interval_cases k <;> decide

theorem digitVal_digitChar (k : Nat) (h : k < 10) : digitVal (digitChar k) = k := by
  interval_cases k <;> decide

theorem natDigits_ne_nil (n : Nat) : natDigits n ≠ [] := by
  rw [natDigits]
  split <;> simp

theorem natDigits_digits (n : Nat) : ∀ c ∈ natDigits n, isDigitChar c = true := by
  induction n using Nat.strong_induction_on with
  | _ n ih =>
    rw [natDigits]
    split
    · intro c hc
      rw [List.mem_singleton] at hc
      subst hc
      exact digitChar_isDigit n (by omega)
    · intro c hc
      rw [List.mem_append] at hc
      rcases hc with h | h
      · exact ih (n / 10) (Nat.div_lt_self (by omega) (by omega)) c h
      · rw [List.mem_singleton] at h
        subst h
        exact digitChar_isDigit _ (Nat.mod_lt _ (by omega))

theorem natDigits_head (n : Nat) : ∃ c ds, natDigits n = c :: ds ∧ isDigitChar c = true := by
  cases h : natDigits n with
  | nil => exact absurd h (natDigits_ne_nil n)
  | cons c ds =>
    exact ⟨c, ds, rfl, natDigits_digits n c (h ▸ List.mem_cons_self c ds)⟩

theorem parseDigits_run (ds : List Char) (hds : ∀ c ∈ ds, isDigitChar c = true)
    (acc : Nat) (rest : List Char) (hrest : headNotDigit rest = true) :
    parseDigits acc (ds ++ rest) = (ds.foldl (fun a c => a * 10 + digitVal c) acc, rest) := by
  induction ds generalizing acc with
  | nil =>
    cases rest with
    | nil => rfl
    | cons c cs =>
      have : isDigitChar c = false := by
        simpa [headNotDigit] using hrest
      simp [parseDigits, this]
  | cons d ds ih =>
    have hd : isDigitChar d = true := hds d (List.mem_cons_self d ds)
    simp only [List.cons_append, parseDigits, hd, if_true, List.foldl_cons]
    exact ih (fun c hc => hds c (List.mem_cons_of_mem d hc)) _

theorem foldl_natDigits (n : Nat) : ∀ acc : Nat,
    (natDigits n).foldl (fun a c => a * 10 + digitVal c) acc
      = acc * 10 ^ (natDigits n).length + n := by
  induction n using Nat.strong_induction_on with
  | _ n ih =>
    intro acc
    rw [natDigits]
    split
    · simp [digitVal_digitChar n (by omega)]
    · rw [List.foldl_append, List.length_append, ih (n / 10) (Nat.div_lt_self (by omega) (by omega))]
      simp [digitVal_digitChar (n % 10) (Nat.mod_lt _ (by omega))]
      rw [pow_succ]
      have : 10 * (n / 10) + n % 10 = n := Nat.div_add_mod n 10
      ring_nf
      omega

theorem parseDigits_natDigits (m : Nat) (c : Char) (ds rest : List Char)
    (h : natDigits m = c :: ds) (hrest : headNotDigit rest = true) :
    parseDigits (digitVal c) (ds ++ rest) = (m, rest) := by
  have hds : ∀ x ∈ ds, isDigitChar x = true :=
    fun x hx => natDigits_digits m x (h ▸ List.mem_cons_of_mem c hx)
  rw [parseDigits_run ds hds _ rest hrest]
  have hfold := foldl_natDigits m 0
  rw [h] at hfold
  simpa using hfold

theorem parseNat_natDigits (m : Nat) (rest : List Char) (hrest : headNotDigit rest = true) :
    parseNat (natDigits m ++ rest) = some (m, rest) := by
  obtain ⟨c, ds, h, hc⟩ := natDigits_head m
  rw [h, List.cons_append]
  simp [parseNat, hc, parseDigits_natDigits m c ds rest h hrest]

theorem hexVal_hexDigitChar (k : Nat) (h : k < 16) : hexVal (hexDigitChar k) = some k := by
  interval_cases k <;> decide


theorem parseStringBody_go (cs rest : List Char) :
    parseStringBody (escapeChars.go cs ++ rest) = some (cs, rest) := by
  induction cs with
  | nil =>
    show parseStringBody ('"' :: rest) = some ([], rest)
    simp [parseStringBody]
  | cons c cs ih =>
    show parseStringBody ((escapeChar c ++ escapeChars.go cs) ++ rest) = _
    rw [List.append_assoc]
    unfold escapeChar
    by_cases h1 : c = '"'
    · subst h1
      simp [parseStringBody, parseEscape, ih]
    · rw [if_neg h1]
      by_cases h2 : c = '\\'
      · subst h2
        simp [parseStringBody, parseEscape, ih]
      · rw [if_neg h2]
        by_cases h3 : c = '\n'
        · subst h3
          simp [parseStringBody, parseEscape, ih]
        · rw [if_neg h3]
          by_cases h4 : c = '\t'
          · subst h4
            simp [parseStringBody, parseEscape, ih]
          · rw [if_neg h4]
            by_cases h5 : c = '\r'
            · subst h5
              simp [parseStringBody, parseEscape, ih]
            · rw [if_neg h5]
              by_cases h6 : c = Char.ofNat 8
              · subst h6
                simp [parseStringBody, parseEscape, ih]
              · rw [if_neg h6]
                by_cases h7 : c = Char.ofNat 12
                · subst h7
                  simp [parseStringBody, parseEscape, ih]
                · rw [if_neg h7]
                  by_cases h8 : c.toNat < 32
                  · rw [if_pos h8]
                    have hhi : hexVal (hexDigitChar (c.toNat / 16)) = some (c.toNat / 16) :=
                      hexVal_hexDigitChar _ (by omega)
                    have hlo : hexVal (hexDigitChar (c.toNat % 16)) = some (c.toNat % 16) :=
                      hexVal_hexDigitChar _ (Nat.mod_lt _ (by omega))
                    have hcode : 4096 * 0 + 256 * 0 + 16 * (c.toNat / 16) + c.toNat % 16 = c.toNat := by
                      omega
                    have h0 : hexVal '0' = some 0 := by decide
                    simp [parseStringBody, parseEscape, parseHex4, h0, hhi, hlo, ih, hcode]
                    have hc16 : 16 * (c.toNat / 16) + c.toNat % 16 = c.toNat := by omega
                    rw [hc16, Char.ofNat_toNat]
                  · rw [if_neg h8]
                    show parseStringBody (c :: (escapeChars.go cs ++ rest)) = _
                    simp [parseStringBody, h1, h2, h8, ih]

mutual
/-- Parser budget sufficient for one serialized value. -/
def needV : Json → Nat
  | .null => 1
  | .bool _ => 1
  | .num _ => 1
  | .str _ => 1
  | .arr xs => 2 + needL xs
  | .obj kvs => 2 + needO kvs

/-- Parser budget sufficient for a serialized item-list continuation. -/
def needL : JArr → Nat
  | .nil => 0
  | .cons v tl => 1 + needV v + needL tl

/-- Parser budget sufficient for a serialized member-list continuation. -/
def needO : JObj → Nat
  | .nil => 0
  | .cons _ v tl => 1 + needV v + needO tl
end

theorem headNotDigit_cons (c : Char) (r : List Char) :
    headNotDigit (c :: r) = !isDigitChar c := rfl

theorem digit_ne_n (c : Char) (h : isDigitChar c = true) : c ≠ 'n' := by
  intro he; rw [he] at h; exact absurd h (by decide)

theorem digit_ne_t (c : Char) (h : isDigitChar c = true) : c ≠ 't' := by
  intro he; rw [he] at h; exact absurd h (by decide)

theorem digit_ne_f (c : Char) (h : isDigitChar c = true) : c ≠ 'f' := by
  intro he; rw [he] at h; exact absurd h (by decide)

theorem digit_ne_quote (c : Char) (h : isDigitChar c = true) : c ≠ '"' := by
  intro he; rw [he] at h; exact absurd h (by decide)

theorem digit_ne_minus (c : Char) (h : isDigitChar c = true) : c ≠ '-' := by
  intro he; rw [he] at h; exact absurd h (by decide)

theorem digit_ne_rbracket (c : Char) (h : isDigitChar c = true) : c ≠ ']' := by
  intro he; rw [he] at h; exact absurd h (by decide)

theorem stringify_head (j : Json) :
    ∃ c cs, stringifyChars j = c :: cs ∧ c ≠ ']' := by
  cases j with
  | null => exact ⟨'n', ['u', 'l', 'l'], rfl, by decide⟩
  | bool b => cases b with
    | true => exact ⟨'t', ['r', 'u', 'e'], rfl, by decide⟩
    | false => exact ⟨'f', ['a', 'l', 's', 'e'], rfl, by decide⟩
  | num n =>
    rw [show stringifyChars (.num n) = intChars n from rfl, intChars]
    by_cases hn : n < 0
    · exact ⟨'-', natDigits n.natAbs, by rw [if_pos hn], by decide⟩
    · obtain ⟨c, ds, hnat, hdig⟩ := natDigits_head n.toNat
      exact ⟨c, ds, by rw [if_neg hn, hnat], digit_ne_rbracket c hdig⟩
  | str s => exact ⟨'"', escapeChars.go s.data, rfl, by decide⟩
  | arr xs => exact ⟨'[', headItems xs ++ [']'], rfl, by decide⟩
  | obj kvs => exact ⟨Char.ofNat 123, headMembers kvs ++ [Char.ofNat 125], rfl, by decide⟩

theorem parseValue_null (fuel : Nat) (rest : List Char) :
    parseValue (fuel + 1) ('n' :: 'u' :: 'l' :: 'l' :: rest) = some (.null, rest) := by
  simp [parseValue, matchChars]

theorem parseValue_true (fuel : Nat) (rest : List Char) :
    parseValue (fuel + 1) ('t' :: 'r' :: 'u' :: 'e' :: rest) = some (.bool true, rest) := by
  simp [parseValue, matchChars]

theorem parseValue_false (fuel : Nat) (rest : List Char) :
    parseValue (fuel + 1) ('f' :: 'a' :: 'l' :: 's' :: 'e' :: rest) = some (.bool false, rest) := by
  simp [parseValue, matchChars]

theorem parseValue_quote (fuel : Nat) (cs : List Char) :
    parseValue (fuel + 1) ('"' :: cs)
      = (parseStringBody cs).map (fun r => (.str (String.mk r.1), r.2)) := by
  simp [parseValue]

theorem parseValue_minus (fuel : Nat) (cs : List Char) :
    parseValue (fuel + 1) ('-' :: cs)
      = (parseNat cs).map (fun r => (.num (-(r.1 : Int)), r.2)) := by
  simp [parseValue]

theorem parseValue_digit (fuel : Nat) (c : Char) (cs : List Char) (h : isDigitChar c = true) :
    parseValue (fuel + 1) (c :: cs)
      = some (.num ((parseDigits (digitVal c) cs).1 : Int), (parseDigits (digitVal c) cs).2) := by
  simp [parseValue, digit_ne_n c h, digit_ne_t c h, digit_ne_f c h, digit_ne_quote c h,
    digit_ne_minus c h, h]

theorem parseValue_lbracket (fuel : Nat) (cs : List Char) :
    parseValue (fuel + 1) ('[' :: cs) = parseArrTail fuel cs := by
  simp [parseValue, (by decide : isDigitChar '[' = false)]

theorem parseValue_lbrace (fuel : Nat) (cs : List Char) :
    parseValue (fuel + 1) (Char.ofNat 123 :: cs) = parseObjTail fuel cs := by
  simp [parseValue, (by decide : isDigitChar (Char.ofNat 123) = false)]

theorem parseArrTail_rbracket (fuel : Nat) (cs2 : List Char) :
    parseArrTail (fuel + 1) (']' :: cs2) = some (.arr .nil, cs2) := by
  simp [parseArrTail]

theorem parseArrTail_cons (fuel : Nat) (d : Char) (cs2 : List Char) (h : d ≠ ']') :
    parseArrTail (fuel + 1) (d :: cs2)
      = (parseItems fuel (d :: cs2)).map (fun r => (.arr r.1, r.2)) := by
  simp [parseArrTail, h]

theorem parseObjTail_rbrace (fuel : Nat) (cs2 : List Char) :
    parseObjTail (fuel + 1) (Char.ofNat 125 :: cs2) = some (.obj .nil, cs2) := by
  simp [parseObjTail]

theorem parseObjTail_cons (fuel : Nat) (d : Char) (cs2 : List Char) (h : d ≠ Char.ofNat 125) :
    parseObjTail (fuel + 1) (d :: cs2)
      = (parseMembers fuel (d :: cs2)).map (fun r => (.obj r.1, r.2)) := by
  simp [parseObjTail, h]

mutual
theorem parseValue_stringify : ∀ (j : Json) (fuel : Nat) (rest : List Char),
    needV j ≤ fuel → headNotDigit rest = true →
    parseValue fuel (stringifyChars j ++ rest) = some (j, rest)
  | .null, fuel, rest, hfuel, hrest => by
    obtain ⟨f, rfl⟩ : ∃ f, fuel = f + 1 :=
      ⟨fuel - 1, by have : needV .null = 1 := rfl; omega⟩
    exact parseValue_null f rest
  | .bool true, fuel, rest, hfuel, hrest => by
    obtain ⟨f, rfl⟩ : ∃ f, fuel = f + 1 :=
      ⟨fuel - 1, by have : needV (.bool true) = 1 := rfl; omega⟩
    exact parseValue_true f rest
  | .bool false, fuel, rest, hfuel, hrest => by
    obtain ⟨f, rfl⟩ : ∃ f, fuel = f + 1 :=
      ⟨fuel - 1, by have : needV (.bool false) = 1 := rfl; omega⟩
    exact parseValue_false f rest
  | .num n, fuel, rest, hfuel, hrest => by
    obtain ⟨f, rfl⟩ : ∃ f, fuel = f + 1 :=
      ⟨fuel - 1, by have : needV (.num n) = 1 := rfl; omega⟩
    rw [show stringifyChars (.num n) = intChars n from rfl, intChars]
    by_cases hn : n < 0
    · rw [if_pos hn, List.cons_append, parseValue_minus, parseNat_natDigits _ _ hrest]
      have he : -((n.natAbs : Nat) : Int) = n := by omega
      show some (Json.num (-((n.natAbs : Nat) : Int)), rest) = some (Json.num n, rest)
      rw [he]
    · rw [if_neg hn]
      obtain ⟨c, ds, hnat, hdig⟩ := natDigits_head n.toNat
      rw [hnat, List.cons_append, parseValue_digit f c (ds ++ rest) hdig,
        parseDigits_natDigits n.toNat c ds rest hnat hrest]
      have he : ((n.toNat : Nat) : Int) = n := Int.toNat_of_nonneg (by omega)
      show some (Json.num ((n.toNat : Nat) : Int), rest) = some (Json.num n, rest)
      rw [he]
  | .str s, fuel, rest, hfuel, hrest => by
    obtain ⟨f, rfl⟩ : ∃ f, fuel = f + 1 :=
      ⟨fuel - 1, by have : needV (.str s) = 1 := rfl; omega⟩
    show parseValue (f + 1) ('"' :: (escapeChars.go s.data ++ rest)) = some (.str s, rest)
    rw [parseValue_quote, parseStringBody_go]
    rfl
  | .arr .nil, fuel, rest, hfuel, hrest => by
    obtain ⟨g, rfl⟩ : ∃ g, fuel = g + 2 :=
      ⟨fuel - 2, by have : needV (.arr .nil) = 2 := rfl; omega⟩
    show parseValue (g + 1 + 1) ('[' :: ']' :: rest) = some (.arr .nil, rest)
    rw [parseValue_lbracket, parseArrTail_rbracket]
  | .arr (.cons v tl), fuel, rest, hfuel, hrest => by
    have hf : 2 + (1 + needV v + needL tl) ≤ fuel := hfuel
    obtain ⟨g, rfl⟩ : ∃ g, fuel = g + 2 := ⟨fuel - 2, by omega⟩
    rw [show stringifyChars (.arr (.cons v tl))
        = '[' :: ((stringifyChars v ++ restItems tl) ++ [']']) from rfl]
    simp only [List.cons_append, List.append_assoc, List.singleton_append, List.nil_append]
    rw [show g + 2 = (g + 1) + 1 from rfl, parseValue_lbracket]
    obtain ⟨c0, cs0, hsc, hc0⟩ := stringify_head v
    rw [hsc, List.cons_append, parseArrTail_cons g c0 _ hc0, ← List.cons_append, ← hsc]
    rw [parseItems_stringify v tl g rest (by omega) hrest]
    rfl
  | .obj .nil, fuel, rest, hfuel, hrest => by
    obtain ⟨g, rfl⟩ : ∃ g, fuel = g + 2 :=
      ⟨fuel - 2, by have : needV (.obj .nil) = 2 := rfl; omega⟩
    show parseValue (g + 1 + 1) (Char.ofNat 123 :: Char.ofNat 125 :: rest) = some (.obj .nil, rest)
    rw [parseValue_lbrace, parseObjTail_rbrace]
  | .obj (.cons k v tl), fuel, rest, hfuel, hrest => by
    have hf : 2 + (1 + needV v + needO tl) ≤ fuel := hfuel
    obtain ⟨g, rfl⟩ : ∃ g, fuel = g + 2 := ⟨fuel - 2, by omega⟩
    rw [show stringifyChars (.obj (.cons k v tl))
        = Char.ofNat 123 :: ((escapeChars k.data ++ ':' :: stringifyChars v ++ restMembers tl)
          ++ [Char.ofNat 125]) from rfl]
    simp only [List.cons_append, List.append_assoc, List.singleton_append, List.nil_append]
    rw [show g + 2 = (g + 1) + 1 from rfl, parseValue_lbrace]
    rw [show escapeChars k.data = '"' :: escapeChars.go k.data from rfl, List.cons_append]
    rw [parseObjTail_cons g '"' _ (by decide)]
    rw [show ('"' :: (escapeChars.go k.data
          ++ (':' :: (stringifyChars v ++ (restMembers tl ++ (Char.ofNat 125 :: rest))))))
        = escapeChars k.data ++ (':' :: (stringifyChars v
          ++ (restMembers tl ++ (Char.ofNat 125 :: rest)))) from rfl]
    rw [parseMembers_stringify k v tl g rest (by omega) hrest]
    rfl
termination_by j _ _ _ _ => sizeOf j

theorem parseItems_stringify : ∀ (v : Json) (tl : JArr) (fuel : Nat) (rest : List Char),
    1 + needV v + needL tl ≤ fuel → headNotDigit rest = true →
    parseItems fuel (stringifyChars v ++ (restItems tl ++ (']' :: rest)))
      = some (.cons v tl, rest)
  | v, .nil, fuel, rest, hfuel, hrest => by
    obtain ⟨g, rfl⟩ : ∃ g, fuel = g + 1 := ⟨fuel - 1, by omega⟩
    simp only [restItems, List.nil_append]
    have h1 : parseValue g (stringifyChars v ++ (']' :: rest)) = some (v, ']' :: rest) :=
      parseValue_stringify v g (']' :: rest)
        (by have : needL (.nil : JArr) = 0 := rfl; omega)
        (by rw [headNotDigit_cons]; decide)
    simp only [parseItems, h1]
    simp
  | v, .cons v2 tl2, fuel, rest, hfuel, hrest => by
    have hf : 1 + needV v + (1 + needV v2 + needL tl2) ≤ fuel := hfuel
    obtain ⟨g, rfl⟩ : ∃ g, fuel = g + 1 := ⟨fuel - 1, by omega⟩
    rw [show restItems (.cons v2 tl2)
        = ',' :: (stringifyChars v2 ++ restItems tl2) from rfl]
    simp only [List.cons_append, List.append_assoc]
    have h1 : parseValue g (stringifyChars v
          ++ (',' :: (stringifyChars v2 ++ (restItems tl2 ++ (']' :: rest)))))
        = some (v, ',' :: (stringifyChars v2 ++ (restItems tl2 ++ (']' :: rest)))) :=
      parseValue_stringify v g _ (by omega) (by rw [headNotDigit_cons]; decide)
    simp only [parseItems, h1]
    rw [parseItems_stringify v2 tl2 g rest (by omega) hrest]
    simp

termination_by v tl _ _ _ _ => 1 + sizeOf v + sizeOf tl

theorem parseMembers_stringify : ∀ (k : String) (v : Json) (tl : JObj) (fuel : Nat)
      (rest : List Char),
    1 + needV v + needO tl ≤ fuel → headNotDigit rest = true →
    parseMembers fuel (escapeChars k.data ++ (':' :: (stringifyChars v
        ++ (restMembers tl ++ (Char.ofNat 125 :: rest)))))
      = some (.cons k v tl, rest)
  | k, v, .nil, fuel, rest, hfuel, hrest => by
    obtain ⟨g, rfl⟩ : ∃ g, fuel = g + 1 := ⟨fuel - 1, by omega⟩
    show parseMembers (g + 1) ('"' :: (escapeChars.go k.data
        ++ (':' :: (stringifyChars v ++ (restMembers .nil ++ (Char.ofNat 125 :: rest))))))
      = some (.cons k v .nil, rest)
    simp only [restMembers, List.nil_append]
    have h1 : parseValue g (stringifyChars v ++ (Char.ofNat 125 :: rest))
        = some (v, Char.ofNat 125 :: rest) :=
      parseValue_stringify v g _ (by have : needO (.nil : JObj) = 0 := rfl; omega)
        (by rw [headNotDigit_cons]; decide)
    simp only [parseMembers, if_pos rfl, parseStringBody_go, h1]
    have hne : (Char.ofNat 125 = ',') = False := by decide
    simp [hne]
  | k, v, .cons k2 v2 tl2, fuel, rest, hfuel, hrest => by
    have hf : 1 + needV v + (1 + needV v2 + needO tl2) ≤ fuel := hfuel
    obtain ⟨g, rfl⟩ : ∃ g, fuel = g + 1 := ⟨fuel - 1, by omega⟩
    show parseMembers (g + 1) ('"' :: (escapeChars.go k.data
        ++ (':' :: (stringifyChars v
          ++ (restMembers (.cons k2 v2 tl2) ++ (Char.ofNat 125 :: rest))))))
      = some (.cons k v (.cons k2 v2 tl2), rest)
    rw [show restMembers (.cons k2 v2 tl2)
        = ',' :: (escapeChars k2.data ++ ':' :: stringifyChars v2 ++ restMembers tl2) from rfl]
    simp only [List.cons_append, List.append_assoc]
    have h1 : parseValue g (stringifyChars v
          ++ (',' :: (escapeChars k2.data ++ (':' :: (stringifyChars v2
            ++ (restMembers tl2 ++ (Char.ofNat 125 :: rest)))))))
        = some (v, ',' :: (escapeChars k2.data ++ (':' :: (stringifyChars v2
            ++ (restMembers tl2 ++ (Char.ofNat 125 :: rest)))))) :=
      parseValue_stringify v g _ (by omega) (by rw [headNotDigit_cons]; decide)
    simp only [parseMembers, if_pos rfl, parseStringBody_go, h1]
    rw [parseMembers_stringify k2 v2 tl2 g rest (by omega) hrest]
    simp
termination_by _ v tl _ _ _ _ => 1 + sizeOf v + sizeOf tl
end

theorem restItems_length_le (xs : JArr) :
    (restItems xs).length ≤ (headItems xs).length + 1 := by
  cases xs with
  | nil => simp [restItems, headItems]
  | cons v tl => simp [restItems, headItems]

theorem restMembers_length_le (kvs : JObj) :
    (restMembers kvs).length ≤ (headMembers kvs).length + 1 := by
  cases kvs with
  | nil => simp [restMembers, headMembers]
  | cons k v tl => simp [restMembers, headMembers]

mutual
theorem needV_le : ∀ j : Json, needV j ≤ 2 * (stringifyChars j).length
  | .null => by simp [needV, stringifyChars]
  | .bool true => by simp [needV, stringifyChars]
  | .bool false => by simp [needV, stringifyChars]
  | .num n => by
    have h : (intChars n).length ≥ 1 := by
      rw [intChars]
      split
      · simp
      · have := natDigits_ne_nil n.toNat
        cases h : natDigits n.toNat with
        | nil => exact absurd h this
        | cons c ds => simp [h]
    have : needV (.num n) = 1 := rfl
    rw [this, show stringifyChars (.num n) = intChars n from rfl]
    omega
  | .str s => by
    have : needV (.str s) = 1 := rfl
    rw [this, show stringifyChars (.str s) = '"' :: escapeChars.go s.data from rfl]
    simp
    omega
  | .arr xs => by
    have h1 := needL_le xs
    have h2 := restItems_length_le xs
    have : needV (.arr xs) = 2 + needL xs := rfl
    rw [this, show stringifyChars (.arr xs) = '[' :: headItems xs ++ [']'] from rfl]
    simp
    omega
  | .obj kvs => by
    have h1 := needO_le kvs
    have h2 := restMembers_length_le kvs
    have : needV (.obj kvs) = 2 + needO kvs := rfl
    rw [this, show stringifyChars (.obj kvs)
        = Char.ofNat 123 :: headMembers kvs ++ [Char.ofNat 125] from rfl]
    simp
    omega
termination_by j => sizeOf j

theorem needL_le : ∀ xs : JArr, needL xs ≤ 2 * (restItems xs).length
  | .nil => by simp [needL, restItems]
  | .cons v tl => by
    have h1 := needV_le v
    have h2 := needL_le tl
    have : needL (.cons v tl) = 1 + needV v + needL tl := rfl
    rw [this, show restItems (.cons v tl) = ',' :: (stringifyChars v ++ restItems tl) from rfl]
    simp
    omega
termination_by xs => sizeOf xs

theorem needO_le : ∀ kvs : JObj, needO kvs ≤ 2 * (restMembers kvs).length
  | .nil => by simp [needO, restMembers]
  | .cons k v tl => by
    have h1 := needV_le v
    have h2 := needO_le tl
    have : needO (.cons k v tl) = 1 + needV v + needO tl := rfl
    rw [this, show restMembers (.cons k v tl)
        = ',' :: (escapeChars k.data ++ ':' :: stringifyChars v ++ restMembers tl) from rfl]
    simp
    omega
termination_by kvs => sizeOf kvs
end

/-- Round-trip at the frame level: parsing the text `JSON.stringify`
produced recovers the original structured message. -/
theorem parse_stringify (j : Json) : parse (stringify j) = some j := by
  show (match parseValue (2 * (stringifyChars j).length + 1) (stringifyChars j) with
    | some (j, []) => some j
    | _ => none) = some j
  have h := parseValue_stringify j (2 * (stringifyChars j).length + 1) []
    (by have := needV_le j; omega) rfl
  rw [List.append_nil] at h
  rw [h]

/-- State of one `WebSocketServerTransport` instance: whether the private
socket reference `ws` is still set (the constructor stores the accepted
socket; the close paths null it out). -/
structure AdapterState where
  ws : Bool
deriving DecidableEq

/-- Adapter state right after construction: the accepted socket is open. -/
def initialAdapterState : AdapterState := { ws := true }

/-- Errors surfaced through the adapter's `onerror` callback. -/
inductive ErrKind where
  | parseFailure (frame : String)
  | socketError (message : String)

/-- One callback invocation on the attached message-handling core. -/
inductive Callback where
  | onmessage (m : Json)
  | onerror (e : ErrKind)
  | onclose

/-- One event processed by an adapter instance: a raw inbound frame, the
socket's close or error event, an explicit `close()` call, or a `send`
call (tagged with the outcome the socket reports for the write). -/
inductive AdapterOp where
  | frame (data : String)
  | socketClose
  | socketError (message : String)
  | close
  | send (m : Json) (writeError : Option String)

/-- Rejection reasons of the `send` promise. -/
inductive SendErr where
  | notConnected
  | writeError (message : String)
deriving DecidableEq

/-- `send(message)` (server.ts): throws `WebSocket not connected` when the
socket reference is cleared; otherwise writes `JSON.stringify(message)`
and settles with the write outcome. -/
def sendModel (st : AdapterState) (m : Json) (writeError : Option String) :
    Except SendErr String :=
  if st.ws then
    match writeError with
    | none => .ok (stringify m)
    | some e => .error (.writeError e)
  else .error .notConnected

/-- One step of the adapter: the listeners registered in the constructor
plus the `close` and `send` methods.  Returns the next state, the
callbacks invoked, and the result of a `send` call if the op was one. -/
def step (st : AdapterState) : AdapterOp → AdapterState × List Callback × Option (Except SendErr String)
  | .frame data =>
    match parse data with
    | some m => (st, [.onmessage m], none)
    | none => (st, [.onerror (.parseFailure data)], none)
  | .socketClose => ({ ws := false }, [.onclose], none)
  | .socketError e => (st, [.onerror (.socketError e)], none)
  | .close => ({ ws := false }, [], none)
  | .send m w => (st, [], some (sendModel st m w))

/-- Run a sequence of adapter events, collecting callbacks and send
results in order. -/
def runSteps (st : AdapterState) : List AdapterOp → AdapterState × List Callback × List (Except SendErr String)
  | [] => (st, [], [])
  | op :: ops =>
    let r1 := step st op
    let r2 := runSteps r1.1 ops
    (r2.1, r1.2.1 ++ r2.2.1, r1.2.2.toList ++ r2.2.2)

/-- Number of `onclose` invocations in a callback list. -/
def countOnclose : List Callback → Nat
  | [] => 0
  | .onclose :: cbs => 1 + countOnclose cbs
  | _ :: cbs => countOnclose cbs

/-- Number of socket close events in an op list. -/
def countSocketClose : List AdapterOp → Nat
  | [] => 0
  | .socketClose :: ops => 1 + countSocketClose ops
  | _ :: ops => countSocketClose ops

theorem countOnclose_append (a b : List Callback) :
    countOnclose (a ++ b) = countOnclose a + countOnclose b := by
  induction a with
  | nil => simp [countOnclose]
  | cons c cs ih => cases c <;> simp [countOnclose, ih, Nat.add_assoc]

theorem step_onclose (st : AdapterState) (op : AdapterOp) :
    countOnclose (step st op).2.1 = countSocketClose [op] := by
  cases op with
  | frame data =>
    cases h : parse data <;> simp [step, h, countOnclose, countSocketClose]
  | socketClose => simp [step, countOnclose, countSocketClose]
  | socketError e => simp [step, countOnclose, countSocketClose]
  | close => simp [step, countOnclose, countSocketClose]
  | send m w => simp [step, countOnclose, countSocketClose]

theorem countSocketClose_cons (op : AdapterOp) (ops : List AdapterOp) :
    countSocketClose (op :: ops) = countSocketClose [op] + countSocketClose ops := by
  cases op <;> simp [countSocketClose]

theorem runSteps_onclose (ops : List AdapterOp) : ∀ st : AdapterState,
    countOnclose (runSteps st ops).2.1 = countSocketClose ops := by
  induction ops with
  | nil => intro st; simp [runSteps, countOnclose, countSocketClose]
  | cons op ops ih =>
    intro st
    rw [show runSteps st (op :: ops)
        = ((runSteps (step st op).1 ops).1,
           (step st op).2.1 ++ (runSteps (step st op).1 ops).2.1,
           (step st op).2.2.toList ++ (runSteps (step st op).1 ops).2.2) from rfl]
    rw [countSocketClose_cons]
    simp only [countOnclose_append, step_onclose, ih]

theorem step_ws_closed (st : AdapterState) (op : AdapterOp) (h : st.ws = false) :
    ((step st op).1).ws = false := by
  cases op with
  | frame data => cases hp : parse data <;> simp [step, hp, h]
  | socketClose => simp [step]
  | socketError e => simp [step, h]
  | close => simp [step]
  | send m w => simp [step, h]

theorem runSteps_closed (ops : List AdapterOp) : ∀ st : AdapterState, st.ws = false →
    ((runSteps st ops).1.ws = false
      ∧ ∀ r ∈ (runSteps st ops).2.2, r = .error SendErr.notConnected) := by
  induction ops with
  | nil => intro st h; simp [runSteps, h]
  | cons op ops ih =>
    intro st h
    rw [show runSteps st (op :: ops)
        = ((runSteps (step st op).1 ops).1,
           (step st op).2.1 ++ (runSteps (step st op).1 ops).2.1,
           (step st op).2.2.toList ++ (runSteps (step st op).1 ops).2.2) from rfl]
    have hws := step_ws_closed st op h
    obtain ⟨h1, h2⟩ := ih (step st op).1 hws
    refine ⟨h1, ?_⟩
    intro r hr
    simp only [List.mem_append] at hr
    rcases hr with hr | hr
    · cases op with
      | frame data => cases hp : parse data <;> simp [step, hp] at hr
      | socketClose => simp [step] at hr
      | socketError e => simp [step] at hr
      | close => simp [step] at hr
      | send m w =>
        simp [step] at hr
        rw [hr]
        simp [sendModel, h]
    · exact h2 r hr

theorem runSteps_append_state (l1 l2 : List AdapterOp) : ∀ st : AdapterState,
    (runSteps st (l1 ++ l2)).1 = (runSteps (runSteps st l1).1 l2).1 := by
  induction l1 with
  | nil => intro st; rfl
  | cons op ops ih =>
    intro st
    show (runSteps (step st op).1 (ops ++ l2)).1 = _
    rw [ih]
    rfl

theorem runSteps_append_callbacks (l1 l2 : List AdapterOp) : ∀ st : AdapterState,
    (runSteps st (l1 ++ l2)).2.1
      = (runSteps st l1).2.1 ++ (runSteps (runSteps st l1).1 l2).2.1 := by
  induction l1 with
  | nil => intro st; rfl
  | cons op ops ih =>
    intro st
    show (step st op).2.1 ++ (runSteps (step st op).1 (ops ++ l2)).2.1 = _
    rw [ih]
    simp [runSteps]

/-- One text content item of a tool response. -/
structure TextContent where
  text : String
deriving DecidableEq

/-- `CallToolResult` as produced by the helpers in `src/utils/types.ts`:
a content list plus the error flag (absent in `createToolResponse`,
modelled as `false`). -/
structure CallToolResult where
  content : List TextContent
  isError : Bool := false
deriving DecidableEq

/-- `createToolResponse` (types.ts): one text item, no error flag. -/
def createToolResponse (message : String) : CallToolResult :=
  { content := [{ text := message }] }

/-- The argument `createErrorResponse` accepts: an `Error` object or a
plain string. -/
inductive ErrorOrString where
  | errorObj (message : String)
  | plainString (s : String)

/-- `typeof error === 'string' ? error : error.message` — the local
`errorMessage` computed by `createErrorResponse`. -/
def errorMessageOf : ErrorOrString → String
  | .errorObj m => m
  | .plainString s => s

/-- `createErrorResponse` (types.ts): one text item `Error: <message>`
with the error flag set; a string argument is used verbatim, an `Error`
argument contributes its `message`. -/
def createErrorResponse (error : ErrorOrString) : CallToolResult :=
  { content := [{ text := "Error: " ++ errorMessageOf error }],
    isError := true }

/-- A fault thrown by the delegated automation call: either an `Error`
instance (with its message) or any other thrown value (by its string
form). -/
inductive Fault where
  | errorObj (message : String)
  | other (stringForm : String)

/-- `error instanceof Error ? error : String(error)` — how every handler
passes a caught fault to `createErrorResponse`. -/
def faultToArg : Fault → ErrorOrString
  | .errorObj m => .errorObj m
  | .other s => .plainString s

/-- The message text of a fault (its `message` for an `Error`, its string
form otherwise). -/
def faultMessage : Fault → String
  | .errorObj m => m
  | .other s => s

/-- Outcome of a delegated automation call returning a number. -/
inductive CallOutcome where
  | ok (result : Int)
  | thrown (f : Fault)

/-- Outcome of a delegated automation call returning a string. -/
inductive StrCallOutcome where
  | ok (result : String)
  | thrown (f : Fault)

/-- The `winActivate` tool handler (window tools): narrates the raw
delegated result inside one fixed template and never inspects it;
a thrown fault becomes an error envelope. -/
def winActivateHandler (title : String) (text : Option String) (o : CallOutcome) : CallToolResult :=
  match o with
  | .ok result =>
    createToolResponse ("Window \"" ++ title ++ "\" activated with result: " ++ toString result)
  | .thrown f => createErrorResponse (faultToArg f)

/-- The `processClose` tool handler (process.ts): checks the delegated
result against the success sentinel `1` and branches the narration. -/
def processCloseHandler (process : String) (o : CallOutcome) : CallToolResult :=
  match o with
  | .ok result =>
    createToolResponse (if result = 1
      then "Process \"" ++ process ++ "\" closed successfully"
      else "Failed to close process \"" ++ process ++ "\"")
  | .thrown f => createErrorResponse (faultToArg f)

/-- The `mouseMove` tool handler (mouse.ts): narrates the raw delegated
result inside one fixed template and never inspects it. -/
def mouseMoveHandler (x y speed : Int) (o : CallOutcome) : CallToolResult :=
  match o with
  | .ok result =>
    createToolResponse ("Mouse moved to (" ++ toString x ++ ", " ++ toString y
      ++ ") with result: " ++ toString result)
  | .thrown f => createErrorResponse (faultToArg f)

/-- The `clipGet` tool handler (keyboard.ts): quotes the clipboard text on
success; a thrown fault becomes an error envelope. -/
def clipGetHandler (bufSize : Option Int) (o : StrCallOutcome) : CallToolResult :=
  match o with
  | .ok content => createToolResponse ("Clipboard content: \"" ++ content ++ "\"")
  | .thrown f => createErrorResponse (faultToArg f)

/-- Modelled from the spec: the success narration the spec documents for
the window-activate operation ( `Window "<title>" activated with result:
<code>` ), used to compare the code's failure-sentinel output against the
spec's notion of success-phrased text. -/
def winActivateSuccessNarration (title : String) (code : Int) : String :=
  "Window \"" ++ title ++ "\" activated with result: " ++ toString code

/-- One session produced by the websocket branch of `setupServer`: the
per-connection transport adapter and the message-handling core
(`McpServer`) connected to it, identified by allocation order. -/
structure McpSession where
  transportId : Nat
  coreId : Nat
deriving DecidableEq

/-- Result of `setupServer` with the websocket transport. -/
structure WsSetupResult where
  serverId : Nat
  sessions : List McpSession
deriving DecidableEq

/-- The websocket branch of `setupServer` (server.ts), modelled by object
identity: ids number the allocations.  The single `McpServer` is
allocated once up front (id 0); every accepted connection allocates a
fresh `WebSocketServerTransport` (ids 1, 2, ...) and then calls
`server.connect(transport)` on that same server object, so each
session's core is the object with id 0. -/
def setupServerWebsocket (connections : Nat) : WsSetupResult :=
  { serverId := 0,
    sessions := (List.range connections).map (fun i => { transportId := i + 1, coreId := 0 }) }

/-- Steps the entry point's `startServer` can take before settling. -/
inductive StartupAction where
  | createCore
  | registerAll
  | connectStdio
  | openWebSocket
deriving DecidableEq

/-- How `startServer` settles. -/
inductive StartupOutcome where
  | running
  | exitCode (code : Nat)
deriving DecidableEq

/-- `startServer` from the package entry point: it always creates the
`McpServer` and registers every tool/resource/prompt first, then
branches on the transport string; `stdio` connects the stdio transport,
`websocket` logs that it is unimplemented and exits 1, and anything else
throws `Unsupported transport`, which the surrounding catch turns into
exit code 1.  The function is invoked exactly once at module load (no
retry loop).  Returns the actions taken, the outcome, and the failure
message if any. -/
def startServer (transport : String) : List StartupAction × StartupOutcome × Option String :=
  if transport = "stdio" then
    ([.createCore, .registerAll, .connectStdio], .running, none)
  else if transport = "websocket" then
    ([.createCore, .registerAll], .exitCode 1, some "WebSocket transport not fully implemented yet")
  else
    ([.createCore, .registerAll], .exitCode 1, some ("Unsupported transport: " ++ transport))

/-- The transport dispatch of `setupServer` (server.ts): `stdio` and
`websocket` are handled; any other string throws
`Unsupported transport: <t>` before any transport is constructed. -/
def setupServerTransport (transport : String) : Except String String :=
  if transport = "stdio" then .ok "stdio"
  else if transport = "websocket" then .ok "websocket"
  else .error ("Unsupported transport: " ++ transport)

/-- One content item of a resource read result. -/
structure ResourceContent where
  uri : String
  text : Option String
  blob : Option String
  mimeType : String
deriving DecidableEq

/-- What the screenshot handler did: which window it activated (if any)
and the contents it returned. -/
structure ScreenshotResult where
  activated : Option String
  contents : List ResourceContent
deriving DecidableEq

/-- The screenshot resource handler (resources/index.ts): coerces the
optional window parameter with JavaScript truthiness (`params.window ?
String(params.window) : undefined`, so an empty string becomes
`undefined`); a named window is looked up with `winExists` and activated
when found, a missing window makes the handler throw (rethrown by the
outer catch as `Failed to take screenshot: ...`); capture itself is a
text placeholder. -/
def screenshotPlaceholderContent (uri msg : String) : ResourceContent :=
  { uri := uri, text := some msg, blob := none, mimeType := "text/plain" }

def screenshotHandler (uri : String) (window : Option String) (winExists : String → Int) :
    Except String ScreenshotResult :=
  let windowName : Option String :=
    match window with
    | some s => if s = "" then none else some s
    | none => none
  match windowName with
  | some w =>
    if winExists w ≠ 0 then
      .ok { activated := some w,
            contents := [screenshotPlaceholderContent uri
              ("Screenshot of " ++ w ++ " would be captured here")] }
    else .error ("Failed to take screenshot: Window \"" ++ w ++ "\" not found")
  | none =>
    .ok { activated := none,
          contents := [screenshotPlaceholderContent uri
            "Screenshot of full screen would be captured here"] }


/-- The fixed list of extensions the file resource reads as UTF-8 text
(resources/index.ts). -/
def textFileExtensions : List String :=
  [".txt", ".md", ".js", ".ts", ".html", ".css", ".json", ".xml",
   ".csv", ".log", ".ini", ".cfg", ".conf", ".py", ".c", ".cpp",
   ".h", ".java", ".sh", ".bat", ".ps1"]

/-- The extension-to-MIME table of `getMimeType` (resources/index.ts). -/
def mimeTypesTable : List (String × String) :=
  [(".txt", "text/plain"), (".html", "text/html"), (".css", "text/css"),
   (".js", "application/javascript"), (".ts", "application/typescript"),
   (".json", "application/json"), (".xml", "application/xml"),
   (".md", "text/markdown"), (".csv", "text/csv"), (".png", "image/png"),
   (".jpg", "image/jpeg"), (".jpeg", "image/jpeg"), (".gif", "image/gif"),
   (".svg", "image/svg+xml"), (".pdf", "application/pdf"),
   (".doc", "application/msword"),
   (".docx", "application/vnd.openxmlformats-officedocument.wordprocessingml.document"),
   (".xls", "application/vnd.ms-excel"),
   (".xlsx", "application/vnd.openxmlformats-officedocument.spreadsheetml.sheet"),
   (".ppt", "application/vnd.ms-powerpoint"),
   (".pptx", "application/vnd.openxmlformats-officedocument.presentationml.presentation"),
   (".zip", "application/zip"), (".rar", "application/x-rar-compressed"),
   (".7z", "application/x-7z-compressed"), (".tar", "application/x-tar"),
   (".gz", "application/gzip")]

/-- `getMimeType` (resources/index.ts): table lookup with the
octet-stream default. -/
def getMimeType (extension : String) : String :=
  (mimeTypesTable.lookup extension).getD "application/octet-stream"

/-- ASCII lower-casing of one character (`String.prototype.toLowerCase`
restricted to ASCII, which covers every extension in the tables). -/
def asciiToLowerChar (c : Char) : Char :=
  if 65 ≤ c.toNat ∧ c.toNat ≤ 90 then Char.ofNat (c.toNat + 32) else c

/-- ASCII lower-casing of a string (`extension.toLowerCase()`). -/
def asciiToLower (s : String) : String := String.mk (s.data.map asciiToLowerChar)

/-- The non-directory branch of the file resource handler
(resources/index.ts): lowercases `path.extname`, consults the text
extension list, and returns one `text` or one `blob` content item with
the MIME type from `getMimeType`. -/
def readFileBranch (uri rawExtension utf8Text base64Blob : String) : List ResourceContent :=
  let extension := asciiToLower rawExtension
  if textFileExtensions.contains extension then
    [{ uri := uri, text := some utf8Text, blob := none, mimeType := getMimeType extension }]
  else
    [{ uri := uri, text := none, blob := some base64Blob, mimeType := getMimeType extension }]

/-- Claim C1, counterexample: with two accepted websocket connections the
selector produces two distinct transport adapters (ids 1 and 2) but
connects both to the single message-handling core allocated at startup
(core id 0 twice, not nodup), contradicting the claim that every
connection gets a new core instance and that distinct sessions never
share mutable protocol-level state. -/
theorem c1_counterexample :
    ((setupServerWebsocket 2).sessions.map (fun s => s.coreId)) = [0, 0]
    ∧ ¬ ((setupServerWebsocket 2).sessions.map (fun s => s.coreId)).Nodup
    ∧ ((setupServerWebsocket 2).sessions.map (fun s => s.transportId)) = [1, 2] := by
  refine ⟨rfl, by decide, rfl⟩

/-- Claim C1 as amended: for every accepted websocket connection the
selector constructs one new Socket Transport Adapter (transport ids are
pairwise distinct, one session per connection), but it attaches the
single message-handling core instance created at startup to every
connection (every session's core is the one server object). -/
theorem c1_sessions_share_single_core (connections : Nat) :
    ((setupServerWebsocket connections).sessions.map (fun s => s.transportId)).Nodup
    ∧ (∀ s ∈ (setupServerWebsocket connections).sessions,
        s.coreId = (setupServerWebsocket connections).serverId)
    ∧ (setupServerWebsocket connections).sessions.length = connections := by
  refine ⟨?_, ?_, ?_⟩
  · simp only [setupServerWebsocket, List.map_map]
    have : ((fun s : McpSession => s.transportId) ∘ fun i => McpSession.mk (i + 1) 0)
        = fun i => i + 1 := rfl
    rw [this]
    exact (List.nodup_range connections).map (fun a b h => by omega)
  · intro s hs
    simp only [setupServerWebsocket, List.mem_map, List.mem_range] at hs
    obtain ⟨i, _, rfl⟩ := hs
    rfl
  · simp [setupServerWebsocket]

/-- Claim C2, counterexample: the winActivate handler at the non-success
sentinel 0 produces an envelope with no error flag whose text is exactly
the spec's success narration instantiated at code 0 (and mouseMove
behaves the same way), so a non-success sentinel does not yield
failure-phrased text for these handlers. -/
theorem c2_counterexample :
    (winActivateHandler "Notepad" none (CallOutcome.ok 0)).isError = false
    ∧ (winActivateHandler "Notepad" none (CallOutcome.ok 0)).content
        = [{ text := winActivateSuccessNarration "Notepad" 0 }]
    ∧ (mouseMoveHandler 1 2 10 (CallOutcome.ok 0)).isError = false
    ∧ (mouseMoveHandler 1 2 10 (CallOutcome.ok 0)).content
        = [{ text := "Mouse moved to (1, 2) with result: 0" }] :=
  ⟨rfl, rfl, rfl, rfl⟩

/-- Claim C2 as amended: no returned sentinel ever sets the error flag;
handlers with a documented boolean-like sentinel (processClose, success
sentinel 1) branch between success- and failure-phrased narrations,
while result-echoing handlers (winActivate, mouseMove) produce one fixed
narration embedding the raw result whatever its value; only a thrown
fault produces an error-flagged envelope. -/
theorem c2_handler_envelope_narration (title process : String) (text : Option String)
    (x y speed r : Int) (f : Fault) :
    (winActivateHandler title text (.ok r)).isError = false
    ∧ (winActivateHandler title text (.ok r)).content
        = [{ text := "Window \"" ++ title ++ "\" activated with result: " ++ toString r }]
    ∧ (processCloseHandler process (.ok r)).isError = false
    ∧ (processCloseHandler process (.ok r)).content
        = [{ text := if r = 1 then "Process \"" ++ process ++ "\" closed successfully"
            else "Failed to close process \"" ++ process ++ "\"" }]
    ∧ (mouseMoveHandler x y speed (.ok r)).isError = false
    ∧ (mouseMoveHandler x y speed (.ok r)).content
        = [{ text := "Mouse moved to (" ++ toString x ++ ", " ++ toString y
            ++ ") with result: " ++ toString r }]
    ∧ (winActivateHandler title text (.thrown f)).isError = true
    ∧ (processCloseHandler process (.thrown f)).isError = true
    ∧ (mouseMoveHandler x y speed (.thrown f)).isError = true :=
  ⟨rfl, rfl, rfl, rfl, rfl, rfl, rfl, rfl, rfl⟩

/-- Claim C3: every handler invocation produces exactly one envelope with
exactly one content item (handlers are total functions of the delegated
outcome, so no exception crosses the registry boundary); a thrown fault
yields an error-flagged envelope whose text is `Error: ` followed by the
fault's message (or its string form when the fault is not an Error), so
the text contains that message; in particular clipGet on a thrown
`access denied` Error yields an error-flagged envelope whose text
contains `access denied`. -/
theorem c3_handler_envelope_safety (b : Option Int) (s : String) (f : Fault)
    (o : StrCallOutcome) (oc : CallOutcome) (title process : String)
    (wtext : Option String) (x y speed : Int) :
    (clipGetHandler b o).content.length = 1
    ∧ (clipGetHandler b (.ok s)).isError = false
    ∧ (clipGetHandler b (.thrown f)).isError = true
    ∧ (∃ pre post, (clipGetHandler b (.thrown f)).content
        = [{ text := pre ++ faultMessage f ++ post }])
    ∧ (clipGetHandler b (.thrown (Fault.errorObj "access denied"))).isError = true
    ∧ (clipGetHandler b (.thrown (Fault.errorObj "access denied"))).content
        = [{ text := "Error: access denied" }]
    ∧ (winActivateHandler title wtext oc).content.length = 1
    ∧ (processCloseHandler process oc).content.length = 1
    ∧ (mouseMoveHandler x y speed oc).content.length = 1 := by
  refine ⟨?_, rfl, rfl, ⟨"Error: ", "", ?_⟩, rfl, rfl, ?_, ?_, ?_⟩
  · cases o <;> rfl
  · cases f <;> simp [clipGetHandler, createErrorResponse, errorMessageOf, faultToArg,
      faultMessage]
  · cases oc <;> rfl
  · cases oc <;> rfl
  · cases oc <;> rfl

/-- Claim C4: an inbound frame that fails to parse triggers exactly one
error-callback invocation and no message callback, leaves the adapter
state (socket reference) unchanged, and a subsequent parseable frame is
still delivered as a message. -/
theorem c4_malformed_frame (st : AdapterState) (d d2 : String) (m : Json)
    (hbad : parse d = none) (hgood : parse d2 = some m) :
    step st (.frame d) = (st, [.onerror (.parseFailure d)], none)
    ∧ runSteps st [.frame d, .frame d2]
        = (st, [.onerror (.parseFailure d), .onmessage m], []) := by
  constructor
  · simp [step, hbad]
  · simp [runSteps, step, hbad, hgood]

/-- Witness for C4 at the frames `nul` (not JSON) and `[]`. -/
theorem c4_malformed_frame_witness :
    parse "nul" = none
    ∧ parse "[]" = some (.arr .nil)
    ∧ step initialAdapterState (.frame "nul")
        = (initialAdapterState, [.onerror (.parseFailure "nul")], none)
    ∧ runSteps initialAdapterState [.frame "nul", .frame "[]"]
        = (initialAdapterState, [.onerror (.parseFailure "nul"), .onmessage (.arr .nil)], []) :=
  ⟨rfl, rfl,
    (c4_malformed_frame initialAdapterState "nul" "[]" (.arr .nil) rfl rfl).1,
    (c4_malformed_frame initialAdapterState "nul" "[]" (.arr .nil) rfl rfl).2⟩

/-- Claim C5: `send` on a closed adapter (socket reference cleared)
always rejects with `WebSocket not connected`, in particular after any
run ending in an explicit `close()`; on an open adapter `send`
serializes the message with `JSON.stringify`, writes that text, and
settles with the write outcome: it resolves when the write completes and
rejects with the write's error otherwise. -/
theorem c5_send_contract (st : AdapterState) (m : Json) (e : String) (w : Option String)
    (ops : List AdapterOp) :
    (st.ws = false → sendModel st m w = .error .notConnected)
    ∧ (st.ws = true → sendModel st m none = .ok (stringify m))
    ∧ (st.ws = true → sendModel st m (some e) = .error (.writeError e))
    ∧ sendModel (runSteps initialAdapterState (ops ++ [.close])).1 m w
        = .error .notConnected := by
  refine ⟨fun h => by simp [sendModel, h], fun h => by simp [sendModel, h],
    fun h => by simp [sendModel, h], ?_⟩
  have hst : (runSteps initialAdapterState (ops ++ [.close])).1.ws = false := by
    rw [runSteps_append_state]
    rfl
  simp [sendModel, hst]

/-- Witness for C5 on concrete states, the null message, and an empty
prior run. -/
theorem c5_send_contract_witness :
    sendModel { ws := false } Json.null none = .error SendErr.notConnected
    ∧ sendModel { ws := true } Json.null none = .ok (stringify Json.null)
    ∧ sendModel { ws := true } Json.null (some "broken pipe")
        = .error (.writeError "broken pipe")
    ∧ sendModel (runSteps initialAdapterState ([] ++ [.close])).1 Json.null none
        = .error .notConnected :=
  ⟨(c5_send_contract { ws := false } Json.null "broken pipe" none []).1 rfl,
   (c5_send_contract { ws := true } Json.null "broken pipe" none []).2.1 rfl,
   (c5_send_contract { ws := true } Json.null "broken pipe" none []).2.2.1 rfl,
   (c5_send_contract initialAdapterState Json.null "broken pipe" none []).2.2.2⟩

theorem countSocketClose_append (a b : List AdapterOp) :
    countSocketClose (a ++ b) = countSocketClose a + countSocketClose b := by
  induction a with
  | nil => simp [countSocketClose]
  | cons op ops ih => cases op <;> simp [countSocketClose, ih, Nat.add_assoc]

/-- Claim C6: in any execution whose event sequence contains exactly one
socket close event (the ws library fires `close` once, also after an
explicit `close()` call), the close callback is invoked exactly once;
after the close event the socket reference is cleared, every later
`send` rejects, and a closed adapter never reopens under any further
events. -/
theorem c6_close_exactly_once (ops1 ops2 : List AdapterOp)
    (h1 : countSocketClose ops1 = 0) (h2 : countSocketClose ops2 = 0) :
    countOnclose (runSteps initialAdapterState (ops1 ++ AdapterOp.socketClose :: ops2)).2.1 = 1
    ∧ (runSteps initialAdapterState (ops1 ++ AdapterOp.socketClose :: ops2)).1.ws = false
    ∧ (∀ r ∈ (runSteps (runSteps initialAdapterState (ops1 ++ [AdapterOp.socketClose])).1 ops2).2.2,
        r = .error SendErr.notConnected)
    ∧ (∀ ops3 : List AdapterOp, ((runSteps { ws := false } ops3).1).ws = false) := by
  have hmid : (runSteps initialAdapterState (ops1 ++ [AdapterOp.socketClose])).1.ws = false := by
    rw [runSteps_append_state]
    rfl
  refine ⟨?_, ?_, ?_, ?_⟩
  · rw [runSteps_onclose, countSocketClose_append, h1, countSocketClose_cons,
      show countSocketClose [AdapterOp.socketClose] = 1 from rfl, h2]
  · rw [show ops1 ++ AdapterOp.socketClose :: ops2
        = (ops1 ++ [AdapterOp.socketClose]) ++ ops2 by simp]
    rw [runSteps_append_state]
    exact (runSteps_closed ops2 _ hmid).1
  · exact (runSteps_closed ops2 _ hmid).2
  · exact fun ops3 => (runSteps_closed ops3 _ rfl).1

/-- Witness for C6: explicit `close()` followed by the socket's single
close event and a later send. -/
theorem c6_close_exactly_once_witness :
    countOnclose (runSteps initialAdapterState
        ([AdapterOp.close] ++ AdapterOp.socketClose :: [AdapterOp.send Json.null none])).2.1 = 1
    ∧ (runSteps initialAdapterState
        ([AdapterOp.close] ++ AdapterOp.socketClose :: [AdapterOp.send Json.null none])).1.ws
        = false :=
  ⟨(c6_close_exactly_once [AdapterOp.close] [AdapterOp.send Json.null none] rfl rfl).1,
   (c6_close_exactly_once [AdapterOp.close] [AdapterOp.send Json.null none] rfl rfl).2.1⟩

/-- Claim C7: serializing any structured message through the adapter's
send path and parsing the resulting frame through the inbound parse path
yields the original message; fed back into a message listener, the frame
is delivered as exactly that message. -/
theorem c7_roundtrip (m : Json) :
    parse (stringify m) = some m
    ∧ ∀ st : AdapterState, (step st (.frame (stringify m))).2.1 = [Callback.onmessage m] := by
  refine ⟨parse_stringify m, fun st => ?_⟩
  simp [step, parse_stringify m]

/-- Claim C8: any transport string other than the two supported variants
makes startup fail with the `Unsupported transport` configuration error:
the entry point performs no network or stream action (no stdio connect,
no socket opened) and exits with code 1, and `setupServer`'s dispatch
throws the same error before constructing any transport.  `startServer`
runs once at module load, so the failure is not retried. -/
theorem c8_unsupported_transport (t : String) (h1 : t ≠ "stdio") (h2 : t ≠ "websocket") :
    startServer t = ([.createCore, .registerAll], .exitCode 1,
        some ("Unsupported transport: " ++ t))
    ∧ StartupAction.connectStdio ∉ (startServer t).1
    ∧ StartupAction.openWebSocket ∉ (startServer t).1
    ∧ setupServerTransport t = .error ("Unsupported transport: " ++ t) := by
  have hs : startServer t = ([.createCore, .registerAll], .exitCode 1,
      some ("Unsupported transport: " ++ t)) := by
    simp [startServer, h1, h2]
  refine ⟨hs, ?_, ?_, by simp [setupServerTransport, h1, h2]⟩
  · rw [hs]; simp
  · rw [hs]; simp

/-- Witness for C8 at the transport string `tcp`. -/
theorem c8_unsupported_transport_witness :
    startServer "tcp" = ([.createCore, .registerAll], .exitCode 1,
        some ("Unsupported transport: " ++ "tcp"))
    ∧ StartupAction.connectStdio ∉ (startServer "tcp").1
    ∧ StartupAction.openWebSocket ∉ (startServer "tcp").1
    ∧ setupServerTransport "tcp" = .error ("Unsupported transport: " ++ "tcp") :=
  c8_unsupported_transport "tcp" (by decide) (by decide)

/-- Claim C9, counterexample: a request whose window parameter is the
empty string carries a window name, and in an environment where no
window with that name exists (winExists constantly 0) the handler does
not fault: JavaScript truthiness coerces the empty name to `undefined`,
the lookup is skipped, and the full-screen placeholder is returned. -/
theorem c9_counterexample :
    screenshotHandler "screenshot://x" (some "") (fun _ => 0)
      = .ok { activated := none,
              contents := [screenshotPlaceholderContent "screenshot://x"
                "Screenshot of full screen would be captured here"] } := rfl

/-- Claim C9 as amended: for a request with a non-empty window name the
handler activates the window and returns the single text placeholder
when the window exists, and faults (`Failed to take screenshot: Window
... not found`) when it does not; a request with no window name, or with
the empty window name (coerced away by JavaScript truthiness), never
consults the window lookup and returns the full-screen placeholder. -/
theorem c9_screenshot_contract (uri w : String) (winExists : String → Int) :
    screenshotHandler uri (some w) winExists
      = (if w = "" then
          .ok { activated := none,
                contents := [screenshotPlaceholderContent uri
                  "Screenshot of full screen would be captured here"] }
        else if winExists w ≠ 0 then
          .ok { activated := some w,
                contents := [screenshotPlaceholderContent uri
                  ("Screenshot of " ++ w ++ " would be captured here")] }
        else .error ("Failed to take screenshot: Window \"" ++ w ++ "\" not found"))
    ∧ screenshotHandler uri none winExists
      = .ok { activated := none,
              contents := [screenshotPlaceholderContent uri
                "Screenshot of full screen would be captured here"] } := by
  constructor
  · by_cases hw : w = ""
    · simp [screenshotHandler, hw]
    · by_cases he : winExists w ≠ 0 <;> simp [screenshotHandler, hw, he]
  · rfl

/-- Claim C10: the file branch of the file resource returns exactly one
content item whose shape depends only on the lowercased extension: a
UTF-8 text field when it is in the fixed text-extension list, otherwise
a base64 blob; the MIME type comes from the fixed table with the
application/octet-stream default, so text extensions absent from the
table (.log, .ini, .bat) are returned as text with
application/octet-stream. -/
theorem c10_file_resource_shape (uri rawExt utf8 b64 : String) :
    (readFileBranch uri rawExt utf8 b64).length = 1
    ∧ readFileBranch uri rawExt utf8 b64
      = (if textFileExtensions.contains (asciiToLower rawExt) then
          [{ uri := uri, text := some utf8, blob := none,
             mimeType := getMimeType (asciiToLower rawExt) }]
        else
          [{ uri := uri, text := none, blob := some b64,
             mimeType := getMimeType (asciiToLower rawExt) }])
    ∧ readFileBranch uri ".log" utf8 b64
      = [{ uri := uri, text := some utf8, blob := none, mimeType := "application/octet-stream" }]
    ∧ readFileBranch uri ".ini" utf8 b64
      = [{ uri := uri, text := some utf8, blob := none, mimeType := "application/octet-stream" }]
    ∧ readFileBranch uri ".bat" utf8 b64
      = [{ uri := uri, text := some utf8, blob := none, mimeType := "application/octet-stream" }]
    ∧ getMimeType ".log" = "application/octet-stream"
    ∧ getMimeType ".txt" = "text/plain" := by
  refine ⟨?_, rfl, ?_, ?_, ?_, rfl, rfl⟩
  · simp only [readFileBranch]
    split <;> rfl
  · rfl
  · rfl
  · rfl
